import Mathlib

/-!
Verification of the TradeBot repository (src/Tradebot2.py): the indicator
engine (compute_rsi, compute_macd, calculate_indicators), the signal
classifier (get_signals and the buy_count / overall-recommendation logic of
update_stock_data) and the scan orchestrator (scan_market).

The embedding follows the Python source line by line.  A close-price series
(a pandas Series of floats) is modelled as a `List ℚ`; a value that pandas
leaves as NaN ("not yet available" during indicator warm-up, or a genuine
0/0) is modelled as `none : Option ℚ`.  The float-specific behaviour of the
source is made explicit where it matters:
  * dividing avg_gain by avg_loss when avg_loss = 0 yields +inf when
    avg_gain > 0 (so rsi = 100 - 100/(1+inf) = 100) and NaN when
    avg_gain = 0; the model branches on those cases directly;
  * rolling(window=n).mean() is NaN until the window holds n non-NaN
    values; Series.diff() is NaN at index 0;
  * ewm(span=s, adjust=False).mean() is the simple exponential recurrence
    seeded with the first price; ewm(span=s).mean() (the pandas default,
    adjust=True) is the renormalised weighted mean of the whole history.
    Both are total (defined from index 0 on).
-/

namespace TradeBot

/-- Classification values; the Python code uses the string literals
"BUY", "SELL" and "HOLD". -/
inductive Signal
| BUY
| SELL
| HOLD
deriving DecidableEq, Repr

/-- One OHLCV bar of a fetched price series (a row of the pandas frame
built by get_alpha_vantage_data); the timestamp is the frame index. -/
structure PriceBar where
  timestamp : ℕ
  openPrice : ℚ
  high : ℚ
  low : ℚ
  close : ℚ
  volume : ℚ
deriving DecidableEq, Repr

/-- Value of series.diff() at index `t` (compute_rsi, line
delta = series.diff()): undefined at index 0, and equal to
c[t] - c[t-1] afterwards.  Only used at indices `1 ≤ t < c.length`. -/
def deltaAt (c : List ℚ) (t : ℕ) : ℚ :=
  c.getD t 0 - c.getD (t - 1) 0

/-- Value of delta.clip(lower=0) at index `t ≥ 1`: the per-bar gain. -/
def gainAt (c : List ℚ) (t : ℕ) : ℚ :=
  max (deltaAt c t) 0

/-- Value of -1 * delta.clip(upper=0) at index `t ≥ 1`: the per-bar loss. -/
def lossAt (c : List ℚ) (t : ℕ) : ℚ :=
  max (-deltaAt c t) 0

/-- Value of gain.rolling(window=14).mean() at index `t`; only used where
the window `t-13 .. t` avoids the NaN delta at index 0, i.e. for `t ≥ 14`. -/
def avgGain (c : List ℚ) (t : ℕ) : ℚ :=
  (∑ k in Finset.range 14, gainAt c (t - k)) / 14

/-- Value of loss.rolling(window=14).mean() at index `t`, for `t ≥ 14`. -/
def avgLoss (c : List ℚ) (t : ℕ) : ℚ :=
  (∑ k in Finset.range 14, lossAt c (t - k)) / 14

/-- Value of compute_rsi(series, period=14) at index `t`.  NaN (here
`none`) while the rolling windows are not yet full of defined deltas
(`t < 14`), or past the end of the series, or when avg_gain = avg_loss = 0
(the float 0/0).  When avg_loss = 0 < avg_gain the float quotient is +inf
and 100 - 100/(1+inf) saturates to 100. -/
def rsi (c : List ℚ) (t : ℕ) : Option ℚ :=
  if t < 14 ∨ c.length ≤ t then none
  else if avgLoss c t = 0 then
    if avgGain c t = 0 then none else some 100
  else
    some (100 - 100 / (1 + avgGain c t / avgLoss c t))

/-- Value of ewm(span=span, adjust=False).mean() of the series `f`: the
simple exponential recurrence with smoothing α = 2/(span+1), seeded with
the first value. -/
def emaRec (span : ℕ) (f : ℕ → ℚ) : ℕ → ℚ
| 0 => f 0
| t + 1 =>
  (2 / ((span : ℚ) + 1)) * f (t + 1) + (1 - 2 / ((span : ℚ) + 1)) * emaRec span f t

/-- The macd series of compute_macd: exp1 - exp2 with
exp1 = ewm(span=12, adjust=False) and exp2 = ewm(span=26, adjust=False)
of the closes. -/
def macd (c : List ℚ) (t : ℕ) : ℚ :=
  emaRec 12 (fun u => c.getD u 0) t - emaRec 26 (fun u => c.getD u 0) t

/-- The signal series of compute_macd:
signal = macd.ewm(span=9, adjust=False).mean(). -/
def signalLine (c : List ℚ) (t : ℕ) : ℚ :=
  emaRec 9 (macd c) t

/-- The EMA column of calculate_indicators, ewm(span=20).mean() on the
Close column with the pandas default adjust=True: the renormalised
weighted mean of the whole history up to `t`, the weight of c[t-k] being
(1-α)^k with α = 2/(span+1). -/
def emaAdj (span : ℕ) (c : List ℚ) (t : ℕ) : ℚ :=
  (∑ k in Finset.range (t + 1), (1 - 2 / ((span : ℚ) + 1)) ^ k * c.getD (t - k) 0) /
    (∑ k in Finset.range (t + 1), (1 - 2 / ((span : ℚ) + 1)) ^ k)

/-- The SMA column of calculate_indicators, rolling(window=10).mean() on
the Close column at index `t`: NaN until the window is full (`t < 9`) or
past the end of the series. -/
def sma (c : List ℚ) (t : ℕ) : Option ℚ :=
  if t < 9 ∨ c.length ≤ t then none
  else some ((∑ k in Finset.range 10, c.getD (t - k) 0) / 10)

/-- The per-indicator signal values returned by get_signals (a Python
dict with keys "RSI", "MACD", "EMA", "SMA"). -/
structure SignalSet where
  rsiSig : Signal
  macdSig : Signal
  emaSig : Signal
  smaSig : Signal
deriving DecidableEq, Repr

/-- The fail-soft default of get_signals: every indicator HOLD. -/
def holdAll : SignalSet :=
  ⟨Signal.HOLD, Signal.HOLD, Signal.HOLD, Signal.HOLD⟩

/-- RSI row rule of get_signals: BUY below 30, SELL above 70, else HOLD. -/
def rsiRule (r : ℚ) : Signal :=
  if r < 30 then Signal.BUY else if 70 < r then Signal.SELL else Signal.HOLD

/-- MACD row rule of get_signals: BUY when MACD is above the signal line,
SELL when below, HOLD on equality. -/
def macdRule (m s : ℚ) : Signal :=
  if s < m then Signal.BUY else if m < s then Signal.SELL else Signal.HOLD

/-- Close-versus-average rule of get_signals, used for both the EMA and
the SMA rows: BUY when Close is above the average, else SELL.  There is no
HOLD branch; equality falls to SELL. -/
def crossRule (close v : ℚ) : Signal :=
  if v < close then Signal.BUY else Signal.SELL

/-- Whether the row at index `t` survives
df.dropna(subset=["RSI","MACD","Signal","EMA","SMA","Close"]): it must be
in range and its RSI and SMA entries defined (Close, MACD, Signal and EMA
are never NaN on a fetched series). -/
def rowDefined (c : List ℚ) (t : ℕ) : Bool :=
  decide (t < c.length) && (rsi c t).isSome && (sma c t).isSome

/-- Scan for the index selected by df_clean.iloc[-1]: the largest index
below `n` whose row survives the dropna, searching from the end. -/
def lastDefinedFrom (c : List ℚ) : ℕ → Option ℕ
| 0 => none
| t + 1 => if rowDefined c t then some t else lastDefinedFrom c t

/-- Index of the most recent fully-defined row of the frame, if any. -/
def latestDefined (c : List ℚ) : Option ℕ :=
  lastDefinedFrom c c.length

/-- The signal dict built by get_signals from the row at index `t`. -/
def classifyAt (c : List ℚ) (t : ℕ) : SignalSet where
  rsiSig := rsiRule ((rsi c t).getD 0)
  macdSig := macdRule (macd c t) (signalLine c t)
  emaSig := crossRule (c.getD t 0) (emaAdj 20 c t)
  smaSig := crossRule (c.getD t 0) ((sma c t).getD 0)

/-- Model of get_signals(df): all-HOLD when every row of the frame has a
NaN among RSI, MACD, Signal, EMA, SMA, Close; otherwise the per-indicator
rules applied to the most recent fully-defined row. -/
def get_signals (c : List ℚ) : SignalSet :=
  match latestDefined c with
  | none => holdAll
  | some t => classifyAt c t

/-- Model of buy_count = sum(1 for v in signals.values() if v == "BUY"). -/
def buyCount (s : SignalSet) : ℕ :=
  (if s.rsiSig = Signal.BUY then 1 else 0) +
    (if s.macdSig = Signal.BUY then 1 else 0) +
    (if s.emaSig = Signal.BUY then 1 else 0) +
    (if s.smaSig = Signal.BUY then 1 else 0)

/-- Overall recommendation of update_stock_data: BUY when buy_count is at
least 3, SELL when at most 1, else HOLD. -/
def overall (s : SignalSet) : Signal :=
  if 3 ≤ buyCount s then Signal.BUY
  else if buyCount s ≤ 1 then Signal.SELL
  else Signal.HOLD

/-- The derived frame built by calculate_indicators(df): the original
bars, plus the five derived columns as parallel sequences (NaN entries are
`none`; EMA, MACD and Signal are never NaN). -/
structure IndicatorFrame where
  bars : List PriceBar
  emaCol : List ℚ
  smaCol : List (Option ℚ)
  rsiCol : List (Option ℚ)
  macdCol : List ℚ
  signalCol : List ℚ
deriving DecidableEq, Repr

/-- Model of calculate_indicators(df): assigns the EMA, SMA, RSI, MACD and
Signal columns, each derived from the Close column; the existing columns
are not touched. -/
def calculate_indicators (bars : List PriceBar) : IndicatorFrame :=
  let c := bars.map PriceBar.close
  { bars := bars
    emaCol := (List.range bars.length).map (emaAdj 20 c)
    smaCol := (List.range bars.length).map (sma c)
    rsiCol := (List.range bars.length).map (rsi c)
    macdCol := (List.range bars.length).map (macd c)
    signalCol := (List.range bars.length).map (signalLine c) }

/-- One iteration of the scan_market loop body for a single ticker:
`none` when the ticker is skipped (fetch failure, i.e. the fetch outcome
is `none`, or an empty series) or its buy_count is below 3; otherwise the
formatted report line.  The fetch outcome is abstracted as a function from
ticker symbols to optional close-price series. -/
def scanTicker (fetch : String → Option (List ℚ)) (symbol : String) :
    Option String :=
  match fetch symbol with
  | none => none
  | some c =>
    if c.isEmpty then none
    else
      let n := buyCount (get_signals c)
      if 3 ≤ n then some (s!"{symbol}: {n}/4 indicators say BUY") else none

/-- The for-loop of scan_market over the ticker list, with the
accumulator of matching report lines made explicit. -/
def scanLoop (fetch : String → Option (List ℚ)) :
    List String → List String → List String
| acc, [] => acc
| acc, symbol :: rest =>
  match scanTicker fetch symbol with
  | none => scanLoop fetch acc rest
  | some line => scanLoop fetch (acc ++ [line]) rest

/-- Model of scan_market: the joined report, or the sentinel string when
no ticker matched. -/
def scan_market (fetch : String → Option (List ℚ)) (tickers : List String) :
    String :=
  let found := scanLoop fetch [] tickers
  if found.isEmpty then "No strong BUY signals found."
  else String.intercalate "\n" found

/-- A close-price series is strictly decreasing when every later bar is
strictly below every earlier one. -/
def strictDecr (c : List ℚ) : Prop :=
  ∀ j, j < c.length → ∀ i, i < j → c.getD j 0 < c.getD i 0

/-- The concrete scenario series of the spec: close prices 10, 11, ..., 30
(21 ascending integers). -/
def ascSeries : List ℚ :=
  [10, 11, 12, 13, 14, 15, 16, 17, 18, 19, 20, 21, 22, 23, 24, 25, 26, 27, 28, 29, 30]

/-- A strictly decreasing 15-bar series, long enough to complete RSI
warm-up. -/
def decSeries : List ℚ :=
  [15, 14, 13, 12, 11, 10, 9, 8, 7, 6, 5, 4, 3, 2, 1]

/-- An all-constant 15-bar series: every delta is 0, so RSI is the float
0/0 at every bar past warm-up. -/
def constSeries : List ℚ :=
  [5, 5, 5, 5, 5, 5, 5, 5, 5, 5, 5, 5, 5, 5, 5]

/-- Unrolling equation for `emaRec` at a positive index, usable on numeric
literals. -/
lemma emaRec_ne_zero (span : ℕ) (f : ℕ → ℚ) (n : ℕ) (h : n ≠ 0) :
    emaRec span f n =
      (2 / ((span : ℚ) + 1)) * f n +
        (1 - 2 / ((span : ℚ) + 1)) * emaRec span f (n - 1) := by
  cases n with
  | zero => exact absurd rfl h
  | succ m => simp [emaRec]

/-- Unrolling equation for `lastDefinedFrom` at a positive bound, usable on
numeric literals. -/
lemma lastDefinedFrom_ne_zero (c : List ℚ) (n : ℕ) (h : n ≠ 0) :
    lastDefinedFrom c n =
      if rowDefined c (n - 1) then some (n - 1) else lastDefinedFrom c (n - 1) := by
  cases n with
  | zero => exact absurd rfl h
  | succ m => simp [lastDefinedFrom]

/-- If the backwards scan finds nothing, no row below the bound is
defined. -/
lemma lastDefinedFrom_eq_none (c : List ℚ) :
    ∀ n, lastDefinedFrom c n = none → ∀ t, t < n → rowDefined c t = false := by
  intro n
  induction n with
  | zero => intro _ t ht; omega
  | succ m ih =>
    intro h t ht
    rw [lastDefinedFrom] at h
    by_cases hm : rowDefined c m
    · simp [hm] at h
    · rw [if_neg hm] at h
      rcases Nat.lt_succ_iff_lt_or_eq.mp ht with htm | htm
      · exact ih h t htm
      · subst htm; exact Bool.eq_false_iff.mpr hm

/-- If the backwards scan returns index `t`, then the row at `t` is
defined and no later row below the bound is. -/
lemma lastDefinedFrom_eq_some (c : List ℚ) :
    ∀ n t, lastDefinedFrom c n = some t →
      t < n ∧ rowDefined c t = true ∧
        ∀ u, t < u → u < n → rowDefined c u = false := by
  intro n
  induction n with
  | zero => intro t h; simp [lastDefinedFrom] at h
  | succ m ih =>
    intro t h
    rw [lastDefinedFrom] at h
    by_cases hm : rowDefined c m
    · rw [if_pos hm] at h
      obtain rfl : m = t := by simpa using h
      exact ⟨Nat.lt_succ_self m, hm, fun u hu hum => by omega⟩
    · rw [if_neg hm] at h
      obtain ⟨htm, hdef, hmax⟩ := ih t h
      refine ⟨by omega, hdef, fun u hu hum => ?_⟩
      rcases Nat.lt_succ_iff_lt_or_eq.mp hum with hum' | hum'
      · exact hmax u hu hum'
      · subst hum'; exact Bool.eq_false_iff.mpr hm

/-- The scan loop is the filterMap of the per-ticker step, appended to the
incoming accumulator. -/
lemma scanLoop_eq_filterMap (fetch : String → Option (List ℚ)) :
    ∀ (tickers : List String) (acc : List String),
      scanLoop fetch acc tickers = acc ++ tickers.filterMap (scanTicker fetch) := by
  intro tickers
  induction tickers with
  | nil => intro acc; simp [scanLoop]
  | cons symbol rest ih =>
    intro acc
    rw [scanLoop]
    cases h : scanTicker fetch symbol with
    | none => simp [h, ih]
    | some line => simp [h, ih]

/-- Average gains are nonnegative: each summand is a max with 0. -/
lemma avgGain_nonneg (c : List ℚ) (t : ℕ) : 0 ≤ avgGain c t := by
  refine div_nonneg (Finset.sum_nonneg fun k _ => ?_) (by norm_num)
  exact le_max_right _ _

/-- Average losses are nonnegative: each summand is a max with 0. -/
lemma avgLoss_nonneg (c : List ℚ) (t : ℕ) : 0 ≤ avgLoss c t := by
  refine div_nonneg (Finset.sum_nonneg fun k _ => ?_) (by norm_num)
  exact le_max_right _ _

/-- On a strictly decreasing series every bar past warm-up has a strictly
positive average loss. -/
lemma avgLoss_pos_of_strictDecr (c : List ℚ) (t : ℕ) (h14 : 14 ≤ t)
    (htl : t < c.length) (hd : strictDecr c) : 0 < avgLoss c t := by
  refine div_pos (Finset.sum_pos (fun k hk => ?_) ⟨0, by norm_num⟩) (by norm_num)
  have hk13 : k ≤ 13 := by simpa [Nat.lt_succ_iff] using Finset.mem_range.mp hk
  have h1 : 1 ≤ t - k := by omega
  have hlt : c.getD (t - k) 0 < c.getD (t - k - 1) 0 :=
    hd (t - k) (by omega) (t - k - 1) (by omega)
  have : 0 < -deltaAt c (t - k) := by
    simp only [deltaAt]
    linarith
  exact lt_of_lt_of_le this (le_max_left _ _)

/-- RSI is defined at every in-range bar past warm-up whose average loss
is nonzero. -/
lemma rsi_isSome (c : List ℚ) (t : ℕ) (h14 : 14 ≤ t) (htl : t < c.length)
    (hl : avgLoss c t ≠ 0) : (rsi c t).isSome = true := by
  rw [rsi, if_neg (by omega), if_neg hl]
  rfl

/-- SMA is defined at every in-range bar from index 9 on. -/
lemma sma_isSome (c : List ℚ) (t : ℕ) (h9 : 9 ≤ t) (htl : t < c.length) :
    (sma c t).isSome = true := by
  rw [sma, if_neg (by omega)]
  rfl

/-- On a strictly decreasing series the latest close is strictly below the
weighted mean of the history, for any positive weight base. -/
lemma close_mul_lt_weighted_sum (w : ℚ) (hw : 0 < w) (c : List ℚ) (t : ℕ)
    (ht : 1 ≤ t) (htl : t < c.length) (hd : strictDecr c) :
    c.getD t 0 * (∑ k in Finset.range (t + 1), w ^ k) <
      ∑ k in Finset.range (t + 1), w ^ k * c.getD (t - k) 0 := by
  rw [Finset.mul_sum]
  refine Finset.sum_lt_sum (fun k hk => ?_) ⟨1, Finset.mem_range.mpr (by omega), ?_⟩
  · rcases Nat.eq_zero_or_pos k with rfl | hpos
    · simp [mul_comm]
    · have hkt : k ≤ t := by
        have := Finset.mem_range.mp hk; omega
      have hlt : c.getD t 0 ≤ c.getD (t - k) 0 :=
        (hd t htl (t - k) (by omega)).le
      rw [mul_comm]
      exact mul_le_mul_of_nonneg_left hlt (pow_pos hw k).le
  · have hlt : c.getD t 0 < c.getD (t - 1) 0 := hd t htl (t - 1) (by omega)
    rw [mul_comm]
    exact mul_lt_mul_of_pos_left hlt (pow_pos hw 1)

/-- A geometric weight sum with positive base is positive. -/
lemma weight_sum_pos (w : ℚ) (hw : 0 < w) (t : ℕ) :
    0 < ∑ k in Finset.range (t + 1), w ^ k :=
  Finset.sum_pos (fun k _ => pow_pos hw k) ⟨0, Finset.mem_range.mpr (by omega)⟩

/-- On a strictly decreasing series the adjusted EMA(20) is strictly above
the latest close. -/
lemma close_lt_emaAdj (c : List ℚ) (t : ℕ) (ht : 1 ≤ t) (htl : t < c.length)
    (hd : strictDecr c) : c.getD t 0 < emaAdj 20 c t := by
  have hw : (0 : ℚ) < 1 - 2 / (((20 : ℕ) : ℚ) + 1) := by norm_num
  rw [emaAdj, lt_div_iff₀ (weight_sum_pos _ hw t)]
  exact close_mul_lt_weighted_sum _ hw c t ht htl hd

/-- On a strictly decreasing series the 10-bar SMA is strictly above the
latest close, for every in-range bar from index 9 on. -/
lemma close_lt_smaVal (c : List ℚ) (t : ℕ) (h9 : 9 ≤ t) (htl : t < c.length)
    (hd : strictDecr c) :
    c.getD t 0 < (∑ k in Finset.range 10, c.getD (t - k) 0) / 10 := by
  rw [lt_div_iff₀ (by norm_num)]
  have h10 : (c.getD t 0) * 10 = ∑ _k in Finset.range 10, c.getD t 0 := by
    simp [Finset.sum_const, mul_comm]
  rw [h10]
  refine Finset.sum_lt_sum (fun k hk => ?_) ⟨1, Finset.mem_range.mpr (by omega), ?_⟩
  · rcases Nat.eq_zero_or_pos k with rfl | hpos
    · simp
    · have hk9 : k ≤ 9 := by
        have := Finset.mem_range.mp hk; omega
      exact (hd t htl (t - k) (by omega)).le
  · exact hd t htl (t - 1) (by omega)

/-- On a strictly decreasing series with at least 15 bars, the most recent
fully-defined row is the very last row. -/
lemma latestDefined_of_strictDecr (c : List ℚ) (hlen : 15 ≤ c.length)
    (hd : strictDecr c) : latestDefined c = some (c.length - 1) := by
  have hrow : rowDefined c (c.length - 1) = true := by
    have hlpos : 0 < avgLoss c (c.length - 1) :=
      avgLoss_pos_of_strictDecr c (c.length - 1) (by omega) (by omega) hd
    rw [rowDefined, rsi_isSome c _ (by omega) (by omega) (ne_of_gt hlpos),
      sma_isSome c _ (by omega) (by omega)]
    simp [Nat.sub_lt (by omega : 0 < c.length) (by omega : 0 < 1)]
  rw [latestDefined, lastDefinedFrom_ne_zero c c.length (by omega), if_pos hrow]

set_option maxHeartbeats 4000000

/-- On the ascending scenario series every delta is +1, so the average
gain at the last bar is 1. -/
lemma asc_avgGain : avgGain ascSeries 20 = 1 := by
  norm_num [avgGain, gainAt, deltaAt, ascSeries, Finset.sum_range_succ, max_def]

/-- On the ascending scenario series there are no losses. -/
lemma asc_avgLoss : avgLoss ascSeries 20 = 0 := by
  norm_num [avgLoss, lossAt, deltaAt, ascSeries, Finset.sum_range_succ, max_def]

/-- RSI saturates to 100 at the last bar of the ascending scenario
series. -/
lemma asc_rsi : rsi ascSeries 20 = some 100 := by
  rw [rsi, if_neg (by norm_num [ascSeries]), if_pos asc_avgLoss,
    if_neg (by rw [asc_avgGain]; norm_num)]

/-- SMA value at the last bar of the ascending scenario series: the mean
of 21..30. -/
lemma asc_sma : sma ascSeries 20 = some (51 / 2) := by
  rw [sma, if_neg (by norm_num [ascSeries])]
  norm_num [ascSeries, Finset.sum_range_succ]

/-- Exact MACD value at the last bar of the ascending scenario series. -/
lemma asc_macd :
    macd ascSeries 20 =
      3635735342521595778960168521576906855538647148069400 /
        805642427395722378225911993317200201318919182032001 := by
  norm_num [macd, emaRec_ne_zero, emaRec, ascSeries]

/-- Exact signal-line value at the last bar of the ascending scenario
series. -/
lemma asc_signalLine :
    signalLine ascSeries 20 =
      281873399905246774550222189234405818854517711088382712804723257752 /
        76832049121448743651000212985725422031299513056945896148681640625 := by
  norm_num [signalLine, macd, emaRec_ne_zero, emaRec, ascSeries]

/-- Exact adjusted EMA(20) value at the last bar of the ascending scenario
series. -/
lemma asc_emaAdj :
    emaAdj 20 ascSeries 20 =
      60065069312379664145574964420 / 2564188761346304657853684001 := by
  norm_num [emaAdj, Finset.sum_range_succ, ascSeries]

/-- The most recent fully-defined row of the ascending scenario series is
its last row. -/
lemma asc_latest : latestDefined ascSeries = some 20 := by
  have hrow : rowDefined ascSeries 20 = true := by
    rw [rowDefined, asc_rsi, asc_sma]
    norm_num [ascSeries]
  have hlen : ascSeries.length = 21 := by norm_num [ascSeries]
  rw [latestDefined, hlen, lastDefinedFrom_ne_zero _ _ (by norm_num)]
  norm_num [hrow]

/-- Signal set of the ascending scenario series: RSI says SELL, the other
three say BUY. -/
lemma asc_signals :
    get_signals ascSeries =
      ⟨Signal.SELL, Signal.BUY, Signal.BUY, Signal.BUY⟩ := by
  rw [get_signals, asc_latest]
  have hclose : ascSeries.getD 20 0 = 30 := by norm_num [ascSeries]
  simp only [classifyAt, asc_rsi, asc_macd, asc_signalLine, asc_emaAdj, asc_sma,
    hclose, Option.getD_some]
  rw [rsiRule, if_neg (by norm_num), if_pos (by norm_num),
    macdRule, if_pos (by norm_num),
    crossRule, if_pos (by norm_num),
    crossRule, if_pos (by norm_num)]

/-- The ascending scenario series has buy count 3. -/
lemma asc_buyCount : buyCount (get_signals ascSeries) = 3 := by
  rw [asc_signals]; rfl

/-- The concrete decreasing series is strictly decreasing. -/
lemma dec_strictDecr : strictDecr decSeries := by
  unfold strictDecr; decide

/-- The most recent fully-defined row of the concrete decreasing series is
its last row, index 14. -/
lemma dec_latest : latestDefined decSeries = some 14 := by
  rw [latestDefined_of_strictDecr decSeries (by norm_num [decSeries]) dec_strictDecr]
  norm_num [decSeries]

/-- On the concrete decreasing series there are no gains at the last
bar. -/
lemma dec_avgGain : avgGain decSeries 14 = 0 := by
  norm_num [avgGain, gainAt, deltaAt, decSeries, Finset.sum_range_succ, max_def]

/-- On the concrete decreasing series every delta is -1, so the average
loss at the last bar is 1. -/
lemma dec_avgLoss : avgLoss decSeries 14 = 1 := by
  norm_num [avgLoss, lossAt, deltaAt, decSeries, Finset.sum_range_succ, max_def]

/-- On the all-constant series there are no gains at the last bar. -/
lemma const_avgGain : avgGain constSeries 14 = 0 := by
  norm_num [avgGain, gainAt, deltaAt, constSeries, Finset.sum_range_succ, max_def]

/-- On the all-constant series there are no losses at the last bar. -/
lemma const_avgLoss : avgLoss constSeries 14 = 0 := by
  norm_num [avgLoss, lossAt, deltaAt, constSeries, Finset.sum_range_succ, max_def]

/-- C1: for every SignalSet the overall recommendation is a function of
the number of BUY values among the four indicator signals: BUY exactly
when the count is at least 3, SELL exactly when it is at most 1, and HOLD
exactly when it is 2. -/
theorem overall_recommendation_rule (s : SignalSet) :
    (overall s = Signal.BUY ↔ 3 ≤ buyCount s) ∧
    (overall s = Signal.SELL ↔ buyCount s ≤ 1) ∧
    (overall s = Signal.HOLD ↔ buyCount s = 2) := by
  obtain ⟨a, b, c, d⟩ := s
  cases a <;> cases b <;> cases c <;> cases d <;> decide

/-- C2: get_signals computes its per-indicator signals only from the most
recent row of the frame in which RSI, MACD, Signal, EMA, SMA and Close are
all defined (every later row is undefined), and when no such row exists it
returns the all-HOLD signal set instead of failing. -/
theorem getSignals_latest_defined_row (c : List ℚ) :
    ((∀ t, t < c.length → rowDefined c t = false) → get_signals c = holdAll) ∧
    (∀ t, latestDefined c = some t →
      rowDefined c t = true ∧
      (∀ u, t < u → u < c.length → rowDefined c u = false) ∧
      get_signals c = classifyAt c t) := by
  constructor
  · intro h
    cases heq : latestDefined c with
    | none => rw [get_signals, heq]
    | some t =>
      rw [latestDefined] at heq
      obtain ⟨htl, hdef, -⟩ := lastDefinedFrom_eq_some c c.length t heq
      rw [h t htl] at hdef
      exact absurd hdef (by simp)
  · intro t ht
    have ht' : lastDefinedFrom c c.length = some t := by rwa [latestDefined] at ht
    obtain ⟨htl, hdef, hmax⟩ := lastDefinedFrom_eq_some c c.length t ht'
    exact ⟨hdef, hmax, by rw [get_signals, ht]⟩

/-- Witness for C2 at two concrete frames: the empty series yields the
all-HOLD set, and the 15-bar decreasing series is classified from its last
row, index 14, with no later defined row. -/
theorem getSignals_latest_defined_row_witness :
    get_signals ([] : List ℚ) = holdAll ∧
    (rowDefined decSeries 14 = true ∧
      (∀ u, 14 < u → u < decSeries.length → rowDefined decSeries u = false) ∧
      get_signals decSeries = classifyAt decSeries 14) :=
  ⟨(getSignals_latest_defined_row []).1 (by simp),
   (getSignals_latest_defined_row decSeries).2 14 dec_latest⟩

/-- C3: RSI at each defined bar is 100 - 100/(1+RS) with
RS = avgGain/avgLoss, where avgGain and avgLoss are trailing 14-bar simple
means of max(delta, 0) and max(-delta, 0); avgLoss = 0 < avgGain saturates
to 100; avgGain = avgLoss = 0 is undefined; and the first 14 bars are
undefined. -/
theorem rsi_formula (c : List ℚ) (t : ℕ) :
    (t < 14 → rsi c t = none) ∧
    (14 ≤ t → t < c.length →
      avgGain c t =
        (∑ k in Finset.range 14,
          max (c.getD (t - k) 0 - c.getD (t - k - 1) 0) 0) / 14 ∧
      avgLoss c t =
        (∑ k in Finset.range 14,
          max (-(c.getD (t - k) 0 - c.getD (t - k - 1) 0)) 0) / 14 ∧
      (avgLoss c t = 0 → 0 < avgGain c t → rsi c t = some 100) ∧
      (avgLoss c t = 0 → avgGain c t = 0 → rsi c t = none) ∧
      (avgLoss c t ≠ 0 →
        rsi c t = some (100 - 100 / (1 + avgGain c t / avgLoss c t)))) := by
  refine ⟨fun h => by rw [rsi, if_pos (Or.inl h)],
    fun h14 htl => ⟨rfl, rfl, ?_, ?_, ?_⟩⟩
  · intro hl hg
    rw [rsi, if_neg (by omega), if_pos hl, if_neg (ne_of_gt hg)]
  · intro hl hg
    rw [rsi, if_neg (by omega), if_pos hl, if_pos hg]
  · intro hl
    rw [rsi, if_neg (by omega), if_neg hl]

/-- Witness for C3 at three concrete series: saturation to 100 on the
ascending series, undefined 0/0 on the constant series, and the generic
formula on the decreasing series. -/
theorem rsi_formula_witness :
    rsi ascSeries 20 = some 100 ∧
    rsi constSeries 14 = none ∧
    rsi decSeries 14 =
      some (100 - 100 / (1 + avgGain decSeries 14 / avgLoss decSeries 14)) :=
  ⟨((rsi_formula ascSeries 20).2 (by norm_num) (by norm_num [ascSeries])).2.2.1
      asc_avgLoss (by rw [asc_avgGain]; norm_num),
   ((rsi_formula constSeries 14).2 (by norm_num) (by norm_num [constSeries])).2.2.2.1
      const_avgLoss const_avgGain,
   ((rsi_formula decSeries 14).2 (by norm_num) (by norm_num [decSeries])).2.2.2.2
      (by rw [dec_avgLoss]; norm_num)⟩

/-- C4: MACD is the recursive EMA(12) minus the recursive EMA(26) of the
closes, the signal line is the recursive EMA(9) of the MACD series, the
recursive form satisfies the adjust=false recurrence seeded with the first
value, the standalone EMA(20) indicator is the adjusted weighted-average
form, and the two conventions are numerically distinct. -/
theorem macd_ema_conventions :
    (∀ (c : List ℚ) (t : ℕ),
      macd c t =
        emaRec 12 (fun u => c.getD u 0) t - emaRec 26 (fun u => c.getD u 0) t) ∧
    (∀ (c : List ℚ) (t : ℕ), signalLine c t = emaRec 9 (macd c) t) ∧
    (∀ (span : ℕ) (f : ℕ → ℚ), emaRec span f 0 = f 0) ∧
    (∀ (span : ℕ) (f : ℕ → ℚ) (t : ℕ),
      emaRec span f (t + 1) =
        (2 / ((span : ℚ) + 1)) * f (t + 1) +
          (1 - 2 / ((span : ℚ) + 1)) * emaRec span f t) ∧
    (∀ (span : ℕ) (c : List ℚ) (t : ℕ),
      emaAdj span c t =
        (∑ k in Finset.range (t + 1),
            (1 - 2 / ((span : ℚ) + 1)) ^ k * c.getD (t - k) 0) /
          (∑ k in Finset.range (t + 1), (1 - 2 / ((span : ℚ) + 1)) ^ k)) ∧
    emaAdj 20 [10, 11] 1 ≠ emaRec 20 (fun u => ([10, 11] : List ℚ).getD u 0) 1 := by
  refine ⟨fun c t => rfl, fun c t => rfl, fun span f => rfl, fun span f t => rfl,
    fun span c t => rfl, ?_⟩
  have h1 : emaAdj 20 [10, 11] 1 = 421 / 40 := by
    norm_num [emaAdj, Finset.sum_range_succ]
  have h2 : emaRec 20 (fun u => ([10, 11] : List ℚ).getD u 0) 1 = 212 / 21 := by
    norm_num [emaRec_ne_zero, emaRec]
  rw [h1, h2]; norm_num

/-- C5: at the most recent fully-defined row the EMA signal is BUY exactly
when Close is above the EMA and SELL otherwise (equality included), and
likewise for SMA; consequently on every strictly decreasing series of at
least 15 bars both signals are SELL, never HOLD. -/
theorem ema_sma_no_hold (c : List ℚ) :
    (∀ t, latestDefined c = some t →
      ((get_signals c).emaSig = Signal.BUY ↔ emaAdj 20 c t < c.getD t 0) ∧
      ((get_signals c).emaSig = Signal.SELL ↔ ¬ emaAdj 20 c t < c.getD t 0) ∧
      ((get_signals c).smaSig = Signal.BUY ↔ (sma c t).getD 0 < c.getD t 0) ∧
      ((get_signals c).smaSig = Signal.SELL ↔ ¬ (sma c t).getD 0 < c.getD t 0)) ∧
    (15 ≤ c.length → strictDecr c →
      (get_signals c).emaSig = Signal.SELL ∧
        (get_signals c).smaSig = Signal.SELL) := by
  constructor
  · intro t ht
    have hgs : get_signals c = classifyAt c t := by rw [get_signals, ht]
    rw [hgs]
    simp only [classifyAt, crossRule]
    by_cases h1 : emaAdj 20 c t < c.getD t 0 <;>
      by_cases h2 : (sma c t).getD 0 < c.getD t 0 <;>
        simp [h1, h2]
  · intro hlen hd
    have hlt := latestDefined_of_strictDecr c hlen hd
    have hgs : get_signals c = classifyAt c (c.length - 1) := by
      rw [get_signals, hlt]
    have h1t : 1 ≤ c.length - 1 := by omega
    have htl : c.length - 1 < c.length := by omega
    have hema : c.getD (c.length - 1) 0 < emaAdj 20 c (c.length - 1) :=
      close_lt_emaAdj c (c.length - 1) h1t htl hd
    have hsval : sma c (c.length - 1) =
        some ((∑ k in Finset.range 10, c.getD (c.length - 1 - k) 0) / 10) := by
      rw [sma, if_neg (by omega)]
    have hsma : c.getD (c.length - 1) 0 < (sma c (c.length - 1)).getD 0 := by
      rw [hsval, Option.getD_some]
      exact close_lt_smaVal c (c.length - 1) (by omega) htl hd
    rw [hgs]
    refine ⟨?_, ?_⟩
    · simp only [classifyAt, crossRule]
      rw [if_neg (not_lt.mpr hema.le)]
    · simp only [classifyAt, crossRule]
      rw [if_neg (not_lt.mpr hsma.le)]

/-- Witness for C5 on the concrete 15-bar strictly decreasing series: the
BUY-iff characterisation at its latest row, and both signals SELL. -/
theorem ema_sma_no_hold_witness :
    ((get_signals decSeries).emaSig = Signal.BUY ↔
      emaAdj 20 decSeries 14 < decSeries.getD 14 0) ∧
    (get_signals decSeries).emaSig = Signal.SELL ∧
    (get_signals decSeries).smaSig = Signal.SELL :=
  ⟨((ema_sma_no_hold decSeries).1 14 dec_latest).1,
   ((ema_sma_no_hold decSeries).2 (by norm_num [decSeries]) dec_strictDecr).1,
   ((ema_sma_no_hold decSeries).2 (by norm_num [decSeries]) dec_strictDecr).2⟩

/-- C6: on the scenario series of 21 ascending closes 10..30, RSI exceeds
70 so its signal is SELL, MACD is above its signal line (BUY), Close is
above both EMA and SMA (BUY), the buy count is 3, and the overall
recommendation is BUY. -/
theorem ascending_scenario :
    (70 : ℚ) < (rsi ascSeries 20).getD 0 ∧
    signalLine ascSeries 20 < macd ascSeries 20 ∧
    emaAdj 20 ascSeries 20 < ascSeries.getD 20 0 ∧
    (sma ascSeries 20).getD 0 < ascSeries.getD 20 0 ∧
    get_signals ascSeries =
      ⟨Signal.SELL, Signal.BUY, Signal.BUY, Signal.BUY⟩ ∧
    buyCount (get_signals ascSeries) = 3 ∧
    overall (get_signals ascSeries) = Signal.BUY := by
  refine ⟨?_, ?_, ?_, ?_, asc_signals, asc_buyCount, ?_⟩
  · rw [asc_rsi]; norm_num
  · rw [asc_signalLine, asc_macd]; norm_num
  · rw [asc_emaAdj]; norm_num [ascSeries]
  · rw [asc_sma]; norm_num [ascSeries]
  · rw [overall, asc_buyCount]; decide

/-- C7: the scan is the sequential filterMap of the per-ticker step over
the watch-list; a ticker whose fetch fails or returns an empty series
contributes nothing, and a fetched nonempty ticker is recorded with the
formatted report line exactly when its buy count is at least 3. -/
theorem scan_skips_and_thresholds (fetch : String → Option (List ℚ))
    (tickers : List String) :
    scanLoop fetch [] tickers = tickers.filterMap (scanTicker fetch) ∧
    (∀ symbol, fetch symbol = none → scanTicker fetch symbol = none) ∧
    (∀ symbol, fetch symbol = some [] → scanTicker fetch symbol = none) ∧
    (∀ symbol c, fetch symbol = some c → c ≠ [] →
      (scanTicker fetch symbol =
          some (s!"{symbol}: {buyCount (get_signals c)}/4 indicators say BUY") ↔
        3 ≤ buyCount (get_signals c))) := by
  refine ⟨by simpa using scanLoop_eq_filterMap fetch tickers [], ?_, ?_, ?_⟩
  · intro symbol h; simp [scanTicker, h]
  · intro symbol h; simp [scanTicker, h]
  · intro symbol c h hc
    simp only [scanTicker, h]
    rw [if_neg (by simpa using hc)]
    by_cases h3 : 3 ≤ buyCount (get_signals c)
    · simp [h3]
    · simp [h3]

/-- Witness for C7: a failed fetch and an empty series are skipped, and
the ascending scenario series is recorded exactly because its buy count
reaches 3. -/
theorem scan_skips_and_thresholds_witness :
    scanTicker (fun _ => none) "AAPL" = none ∧
    scanTicker (fun _ => some []) "AAPL" = none ∧
    (scanTicker (fun _ => some ascSeries) "AAPL" =
        some (s!"AAPL: {buyCount (get_signals ascSeries)}/4 indicators say BUY") ↔
      3 ≤ buyCount (get_signals ascSeries)) :=
  ⟨(scan_skips_and_thresholds (fun _ => none) []).2.1 "AAPL" rfl,
   (scan_skips_and_thresholds (fun _ => some []) []).2.2.1 "AAPL" rfl,
   (scan_skips_and_thresholds (fun _ => some ascSeries) []).2.2.2 "AAPL" ascSeries
     rfl (by simp [ascSeries])⟩

/-- C8 counterexample: in a scan where no ticker matches, the emitted
report is "No strong BUY signals found." (capital N, trailing period), not
the exact string "no strong BUY signals found" the claim states. -/
theorem scan_sentinel_counterexample :
    (["AAPL"].filterMap (scanTicker (fun _ => none))) = [] ∧
    scan_market (fun _ => none) ["AAPL"] = "No strong BUY signals found." ∧
    scan_market (fun _ => none) ["AAPL"] ≠ "no strong BUY signals found" := by
  refine ⟨rfl, rfl, ?_⟩
  decide

/-- C8 amended: for every scan run in which no ticker meets the
majority-BUY threshold, the emitted report is exactly the sentinel string
"No strong BUY signals found." -/
theorem scan_sentinel_exact (fetch : String → Option (List ℚ))
    (tickers : List String)
    (h : tickers.filterMap (scanTicker fetch) = []) :
    scan_market fetch tickers = "No strong BUY signals found." := by
  have h2 : scanLoop fetch [] tickers = [] := by
    simpa [h] using scanLoop_eq_filterMap fetch tickers []
  simp [scan_market, h2]

/-- Witness for the amended C8: every ticker of a two-ticker watch-list
returns an empty series, so the scan emits the sentinel. -/
theorem scan_sentinel_exact_witness :
    scan_market (fun _ => some []) ["AAPL", "GOOG"] =
      "No strong BUY signals found." :=
  scan_sentinel_exact (fun _ => some []) ["AAPL", "GOOG"] rfl

/-- C9: every defined RSI value lies in the closed interval [0, 100]. -/
theorem rsi_bounded (c : List ℚ) (t : ℕ) (x : ℚ) (h : rsi c t = some x) :
    0 ≤ x ∧ x ≤ 100 := by
  by_cases h1 : t < 14 ∨ c.length ≤ t
  · rw [rsi, if_pos h1] at h
    exact absurd h (by simp)
  rw [rsi, if_neg h1] at h
  by_cases h2 : avgLoss c t = 0
  · rw [if_pos h2] at h
    by_cases h3 : avgGain c t = 0
    · rw [if_pos h3] at h
      exact absurd h (by simp)
    · rw [if_neg h3] at h
      have hx : x = 100 := by simpa using h.symm
      subst hx
      norm_num
  · rw [if_neg h2] at h
    have hx : x = 100 - 100 / (1 + avgGain c t / avgLoss c t) := by
      simpa using h.symm
    subst hx
    have hg : 0 ≤ avgGain c t := avgGain_nonneg c t
    have hl : 0 < avgLoss c t :=
      lt_of_le_of_ne (avgLoss_nonneg c t) (Ne.symm h2)
    have hrs : 0 ≤ avgGain c t / avgLoss c t := div_nonneg hg hl.le
    have h1p : (0 : ℚ) < 1 + avgGain c t / avgLoss c t := by linarith
    have hdpos : 0 < 100 / (1 + avgGain c t / avgLoss c t) := by positivity
    have hdle : 100 / (1 + avgGain c t / avgLoss c t) ≤ 100 := by
      rw [div_le_iff₀ h1p]; nlinarith
    constructor <;> linarith

/-- Witness for C9 at the saturated RSI of the ascending series. -/
theorem rsi_bounded_witness :
    rsi ascSeries 20 = some 100 ∧ (0 : ℚ) ≤ 100 ∧ (100 : ℚ) ≤ 100 :=
  ⟨asc_rsi, (rsi_bounded ascSeries 20 100 asc_rsi).1,
   (rsi_bounded ascSeries 20 100 asc_rsi).2⟩

/-- C10: calculate_indicators keeps every original bar — timestamps and
OHLCV values — unchanged, and every derived column has the same length as
the input series. -/
theorem calculate_indicators_preserves (bars : List PriceBar) :
    (calculate_indicators bars).bars = bars ∧
    (calculate_indicators bars).bars.map PriceBar.timestamp =
      bars.map PriceBar.timestamp ∧
    (calculate_indicators bars).bars.map PriceBar.openPrice =
      bars.map PriceBar.openPrice ∧
    (calculate_indicators bars).bars.map PriceBar.high = bars.map PriceBar.high ∧
    (calculate_indicators bars).bars.map PriceBar.low = bars.map PriceBar.low ∧
    (calculate_indicators bars).bars.map PriceBar.close = bars.map PriceBar.close ∧
    (calculate_indicators bars).bars.map PriceBar.volume =
      bars.map PriceBar.volume ∧
    (calculate_indicators bars).bars.length = bars.length ∧
    (calculate_indicators bars).emaCol.length = bars.length ∧
    (calculate_indicators bars).smaCol.length = bars.length ∧
    (calculate_indicators bars).rsiCol.length = bars.length ∧
    (calculate_indicators bars).macdCol.length = bars.length ∧
    (calculate_indicators bars).signalCol.length = bars.length := by
  refine ⟨rfl, rfl, rfl, rfl, rfl, rfl, rfl, rfl, ?_, ?_, ?_, ?_, ?_⟩ <;>
    simp [calculate_indicators]

end TradeBot
